import Mathlib

/-!
# Shallow embedding of the `elefont` glyph-atlas cache (`src/lib.rs`)

The embedding models the core `Cache<T>` structure and its operations
`Cache::render_glyph` (lib.rs lines 201-235) and `Cache::clear`
(lines 194-199), together with the data types `Glyph`, `Bounds`,
`Metrics`, `TextureGlyph`, `CacheError` and `PixelType`.

Modelling decisions, all stated up front:

* Rust `u32` quantities (cursors, texture dimensions, glyph widths and
  heights) are modelled as `Nat`.  All additions performed by the source
  are modelled without a wrap-around: in the source, `u32` overflow
  aborts the program under checked arithmetic rather than producing a
  state, and it is reachable only with texture dimensions of the order
  of `2^31`; such aborting executions are outside this model.  The
  `i32` fields `Bounds.x`/`Bounds.y` are modelled as `Int`.
* The `HashMap<Glyph, TextureGlyph>` is modelled as an association list
  with the usual lookup/insert/clear semantics (`mapGet`, `mapInsert`);
  keys are compared by value, as `Glyph`'s derived `Eq`/`Hash` do.
* The `FontProvider` trait object is a record of pure functions: the
  provider methods that `Cache` calls (`pixel_type`, `metrics`,
  `rasterize`).  `rasterize` returns `Except CacheError (List Nat)`
  mirroring `Result<Vec<u8>, CacheError>`.
* The `Texture` trait object is a record of its dimensions plus a log
  of every `put_rect` invocation, so that "the cache wrote to the
  texture sink" is observable in the model; `put_rect` appends to the
  log and changes nothing else.
* `render_glyph` additionally returns the list of glyphs for which
  `FontProvider.rasterize` was invoked during that call, so that
  rasterize-call counting is observable.  The source calls `rasterize`
  at exactly one place (line 219), so this trace is `[glyph]` when that
  line runs and `[]` otherwise.
* The source's `metrics.bounds.unwrap()` (line 206) panics when
  `bounds` is `None`.  A panicking call is modelled by the result
  `none`; every non-panicking execution yields
  `some (result, post-state, rasterize-trace)`.
-/

/-- The index of the font character to render (`struct Glyph(pub u32)`). -/
structure Glyph where
  val : Nat
deriving DecidableEq

/-- An axis-aligned rectangle: integer origin, unsigned extent
(`struct Bounds { x: i32, y: i32, width: u32, height: u32 }`). -/
structure Bounds where
  x : Int
  y : Int
  width : Nat
  height : Nat
deriving DecidableEq

/-- The relevant information for a glyph stored on the texture
(`struct TextureGlyph { glyph, bounds }`). -/
structure TextureGlyph where
  glyph : Glyph
  bounds : Bounds
deriving DecidableEq

/-- The layout information for a glyph (`struct Metrics`).  The four
floating-point bearing/advance fields of the source never influence
any control flow or state of the cache and are omitted from the model;
only the optional `bounds` is observed by `render_glyph`. -/
structure Metrics where
  bounds : Option Bounds
deriving DecidableEq

/-- An error generated during a cache operation (`enum CacheError`). -/
inductive CacheError where
  | TextureTooSmall
  | OutOfSpace
  | NonRenderableGlyph (glyph : Glyph)
deriving DecidableEq

/-- How the pixels of the rasterized font are represented (`enum PixelType`). -/
inductive PixelType where
  | Alpha
  | RGBA
deriving DecidableEq

/-- One recorded invocation of `Texture::put_rect`. -/
structure WriteRec where
  pixel : PixelType
  data : List Nat
  gpu : TextureGlyph
deriving DecidableEq

/-- The `Texture` trait object: fixed dimensions plus the log of all
rectangular writes received so far (the surface's pixel contents, as
far as the cache can influence them). -/
structure Texture where
  width : Nat
  height : Nat
  writes : List WriteRec
deriving DecidableEq

/-- `Texture::put_rect`: record the write; dimensions are unchanged. -/
def Texture.put_rect (t : Texture) (pixel : PixelType) (data : List Nat)
    (gpu : TextureGlyph) : Texture :=
  { t with writes := t.writes ++ [⟨pixel, data, gpu⟩] }

/-- The `FontProvider` trait object, restricted to the methods the
`Cache` uses: `pixel_type`, `metrics` and `rasterize`. -/
structure FontProvider where
  pixel_type : PixelType
  metrics : Glyph → Metrics
  rasterize : Glyph → Except CacheError (List Nat)

/-- `HashMap::get` on the association-list model. -/
def mapGet (m : List (Glyph × TextureGlyph)) (g : Glyph) : Option TextureGlyph :=
  match m with
  | [] => none
  | (k, v) :: rest => if k = g then some v else mapGet rest g

/-- `HashMap::insert` on the association-list model: replace the
binding for an existing key, otherwise add a new one. -/
def mapInsert (m : List (Glyph × TextureGlyph)) (g : Glyph)
    (tg : TextureGlyph) : List (Glyph × TextureGlyph) :=
  match m with
  | [] => [(g, tg)]
  | (k, v) :: rest =>
    if k = g then (g, tg) :: rest else (k, v) :: mapInsert rest g tg

/-- The packer state `struct Cache<T>` (lib.rs lines 101-108). -/
structure Cache where
  font : FontProvider
  texture : Texture
  map : List (Glyph × TextureGlyph)
  h_cursor : Nat
  v_cursor : Nat
  current_line_height : Nat

/-- The fresh packer state built by `FontCache::new` (lines 113-125):
empty lookup table, both cursors and the shelf height at zero. -/
def Cache.new (font : FontProvider) (texture : Texture) : Cache :=
  { font := font, texture := texture, map := [],
    h_cursor := 0, v_cursor := 0, current_line_height := 0 }

/-- `Cache::clear` (lines 194-199): empty the lookup table and zero the
cursors and shelf height.  The texture (and so its write log) is not
touched. -/
def Cache.clear (c : Cache) : Cache :=
  { c with map := [], h_cursor := 0, v_cursor := 0, current_line_height := 0 }

/-- The row-wrap step inlined in `render_glyph` (lines 210-214): if the
glyph does not fit in the current row, start a new shelf. -/
def Cache.shelfAdvance (c : Cache) (width : Nat) : Cache :=
  if width + c.h_cursor > c.texture.width then
    { c with h_cursor := 0,
             v_cursor := c.v_cursor + c.current_line_height + 1,
             current_line_height := 0 }
  else c

/-- `Cache::render_glyph` (lib.rs lines 201-235), translated branch by
branch.  The result is `none` when the source panics (the
`metrics.bounds.unwrap()` on line 206 with `bounds == None`), and
otherwise `some (result, post-state, rasterize-trace)`. -/
def Cache.render_glyph (c : Cache) (glyph : Glyph) :
    Option (Except CacheError (Metrics × TextureGlyph) × Cache × List Glyph) :=
  match mapGet c.map glyph with
  | some tex_glyph => some (.ok (c.font.metrics glyph, tex_glyph), c, [])
  | none =>
    let metrics := c.font.metrics glyph
    match metrics.bounds with
    | none => none
    | some bounds =>
      if bounds.width > c.texture.width ∨ bounds.height > c.texture.height then
        some (.error .TextureTooSmall, c, [])
      else
        let c1 := c.shelfAdvance bounds.width
        if bounds.height + c1.v_cursor > c1.texture.height then
          some (.error .OutOfSpace, c1, [])
        else
          let pixel_type := c1.font.pixel_type
          match c1.font.rasterize glyph with
          | .error e => some (.error e, c1, [glyph])
          | .ok data =>
            let gpu : TextureGlyph :=
              { glyph := glyph,
                bounds := { x := (c1.h_cursor : Int), y := (c1.v_cursor : Int),
                            width := bounds.width, height := bounds.height } }
            let c2 := { c1 with texture := c1.texture.put_rect pixel_type data gpu }
            let c3 := { c2 with
                        h_cursor := c2.h_cursor + gpu.bounds.width + 1,
                        current_line_height :=
                          max c2.current_line_height gpu.bounds.height,
                        map := mapInsert c2.map glyph gpu }
            some (.ok (c3.font.metrics glyph, gpu), c3, [glyph])

/-- The post-state of a `render_glyph` call; a panicking call has no
post-state, and the pre-state is returned for totality. -/
def Cache.renderStep (c : Cache) (g : Glyph) : Cache :=
  match c.render_glyph g with
  | some (_, cNext, _) => cNext
  | none => c

/-- One operation on the packer, for stating whole-history invariants:
a `render_glyph` call, a `clear`, or a `FontCache::replace_texture`
(lines 177-182: clear, then swap the texture). -/
inductive CacheOp where
  | render (g : Glyph)
  | clear
  | replaceTexture (t : Texture)

def Cache.applyOp (c : Cache) (op : CacheOp) : Cache :=
  match op with
  | .render g => c.renderStep g
  | .clear => c.clear
  | .replaceTexture t => { c.clear with texture := t }

def Cache.runOps (c : Cache) (ops : List CacheOp) : Cache :=
  ops.foldl Cache.applyOp c

def Cache.runGlyphs (c : Cache) (gs : List Glyph) : Cache :=
  gs.foldl Cache.renderStep c

/-- The committed region of a successful `render_glyph` call, `none`
on an error or a panic. -/
def renderedRegion (c : Cache) (g : Glyph) : Option Bounds :=
  match c.render_glyph g with
  | some (.ok (_, tg), _, _) => some tg.bounds
  | _ => none

/-- The error of a failed `render_glyph` call, `none` on success or a
panic. -/
def renderedErr (c : Cache) (g : Glyph) : Option CacheError :=
  match c.render_glyph g with
  | some (.error e, _, _) => some e
  | _ => none

/-- Two rectangles do not overlap: they are separated along some axis
(a zero-area rectangle overlaps nothing). -/
def Bounds.disjoint (a b : Bounds) : Prop :=
  a.x + a.width ≤ b.x ∨ b.x + b.width ≤ a.x ∨
  a.y + a.height ≤ b.y ∨ b.y + b.height ≤ a.y

instance (a b : Bounds) : Decidable (a.disjoint b) :=
  inferInstanceAs (Decidable (_ ∨ _ ∨ _ ∨ _))

/-! ## Concrete fixtures for the scenario and witness theorems -/

/-- A provider whose glyphs 0, 1, 2 all have 3-wide, 2-high bounds and
rasterize successfully; every other glyph has no bounds. -/
def fABC : FontProvider :=
  { pixel_type := .Alpha,
    metrics := fun g =>
      if g.val < 3 then { bounds := some ⟨0, 0, 3, 2⟩ } else { bounds := none },
    rasterize := fun _ => .ok [] }

/-- An 8-wide, 4-high texture with nothing written yet. -/
def tex84 : Texture := { width := 8, height := 4, writes := [] }

def gA : Glyph := ⟨0⟩
def gB : Glyph := ⟨1⟩
def gC : Glyph := ⟨2⟩

/-- The scenario states: empty, after A, after A and B. -/
def c0 : Cache := Cache.new fABC tex84

def cA : Cache := c0.renderStep gA

def cAB : Cache := cA.renderStep gB


/-! ## Basic lemmas about the state components -/

theorem put_rect_width (t : Texture) (p : PixelType) (d : List Nat)
    (tg : TextureGlyph) : (t.put_rect p d tg).width = t.width := rfl

theorem put_rect_height (t : Texture) (p : PixelType) (d : List Nat)
    (tg : TextureGlyph) : (t.put_rect p d tg).height = t.height := rfl

theorem shelfAdvance_font (c : Cache) (w : Nat) :
    (c.shelfAdvance w).font = c.font := by
  unfold Cache.shelfAdvance; split <;> rfl

theorem shelfAdvance_texture (c : Cache) (w : Nat) :
    (c.shelfAdvance w).texture = c.texture := by
  unfold Cache.shelfAdvance; split <;> rfl

theorem shelfAdvance_map (c : Cache) (w : Nat) :
    (c.shelfAdvance w).map = c.map := by
  unfold Cache.shelfAdvance; split <;> rfl

theorem shelfAdvance_v_cursor (c : Cache) (w : Nat) :
    c.v_cursor ≤ (c.shelfAdvance w).v_cursor := by
  unfold Cache.shelfAdvance; split
  · show c.v_cursor ≤ c.v_cursor + c.current_line_height + 1
    omega
  · exact Nat.le_refl _

/-- After the row-wrap step, a glyph no wider than the texture fits
horizontally at the cursor. -/
theorem shelfAdvance_fit (c : Cache) (w : Nat) (h : w ≤ c.texture.width) :
    w + (c.shelfAdvance w).h_cursor ≤ c.texture.width := by
  unfold Cache.shelfAdvance; split
  · simpa using h
  · omega

/-- Inserting an absent key appends the new binding at the end of the
association list. -/
theorem mapInsert_of_get_none (m : List (Glyph × TextureGlyph)) (g : Glyph)
    (tg : TextureGlyph) (h : mapGet m g = none) :
    mapInsert m g tg = m ++ [(g, tg)] := by
  induction m with
  | nil => rfl
  | cons p rest ih =>
    obtain ⟨k, v⟩ := p
    unfold mapGet at h
    unfold mapInsert
    by_cases hk : k = g
    · simp [hk] at h
    · simp only [if_neg hk] at h ⊢
      rw [ih h]; rfl

/-- Looking a key up after inserting it finds the new binding. -/
theorem mapGet_insert_self (m : List (Glyph × TextureGlyph)) (g : Glyph)
    (tg : TextureGlyph) : mapGet (mapInsert m g tg) g = some tg := by
  induction m with
  | nil => simp [mapInsert, mapGet]
  | cons p rest ih =>
    obtain ⟨k, v⟩ := p
    unfold mapInsert
    by_cases hk : k = g
    · simp [hk, mapGet]
    · simp only [if_neg hk]
      unfold mapGet
      simp [hk, ih]

/-! ## Inversion of `render_glyph`

Every non-panicking call falls into exactly one of five branches of
the source: cache hit (line 202), `TextureTooSmall` (line 207),
`OutOfSpace` (line 215), a rasterization failure propagated by the `?`
on line 219, or a successful commit (lines 220-234). -/

/-- The state after the commit on lines 229-232: the texture receives
the write, the horizontal cursor advances past the glyph plus one pixel
of padding, the shelf height absorbs the glyph's height, and the
glyph's region enters the lookup table.  `c` plays the role of the
state after the (possible) row wrap. -/
def Cache.commit (c : Cache) (g : Glyph) (w hgt : Nat) (d : List Nat) : Cache :=
  { c with
    texture := c.texture.put_rect c.font.pixel_type d
      ⟨g, ⟨(c.h_cursor : Int), (c.v_cursor : Int), w, hgt⟩⟩,
    h_cursor := c.h_cursor + w + 1,
    current_line_height := max c.current_line_height hgt,
    map := mapInsert c.map g ⟨g, ⟨(c.h_cursor : Int), (c.v_cursor : Int), w, hgt⟩⟩ }

theorem render_glyph_cases (c : Cache) (g : Glyph)
    (r : Except CacheError (Metrics × TextureGlyph)) (c2 : Cache) (l : List Glyph)
    (h : c.render_glyph g = some (r, c2, l)) :
    (∃ tg, mapGet c.map g = some tg ∧
      r = .ok (c.font.metrics g, tg) ∧ c2 = c ∧ l = []) ∨
    (∃ b, mapGet c.map g = none ∧ (c.font.metrics g).bounds = some b ∧
      (b.width > c.texture.width ∨ b.height > c.texture.height) ∧
      r = .error .TextureTooSmall ∧ c2 = c ∧ l = []) ∨
    (∃ b, mapGet c.map g = none ∧ (c.font.metrics g).bounds = some b ∧
      ¬(b.width > c.texture.width ∨ b.height > c.texture.height) ∧
      b.height + (c.shelfAdvance b.width).v_cursor > c.texture.height ∧
      r = .error .OutOfSpace ∧ c2 = c.shelfAdvance b.width ∧ l = []) ∨
    (∃ b e, mapGet c.map g = none ∧ (c.font.metrics g).bounds = some b ∧
      ¬(b.width > c.texture.width ∨ b.height > c.texture.height) ∧
      ¬(b.height + (c.shelfAdvance b.width).v_cursor > c.texture.height) ∧
      c.font.rasterize g = .error e ∧
      r = .error e ∧ c2 = c.shelfAdvance b.width ∧ l = [g]) ∨
    (∃ b d, mapGet c.map g = none ∧ (c.font.metrics g).bounds = some b ∧
      ¬(b.width > c.texture.width ∨ b.height > c.texture.height) ∧
      ¬(b.height + (c.shelfAdvance b.width).v_cursor > c.texture.height) ∧
      c.font.rasterize g = .ok d ∧
      r = .ok (c.font.metrics g,
        ⟨g, ⟨((c.shelfAdvance b.width).h_cursor : Int),
             ((c.shelfAdvance b.width).v_cursor : Int), b.width, b.height⟩⟩) ∧
      c2 = (c.shelfAdvance b.width).commit g b.width b.height d ∧ l = [g]) := by
  unfold Cache.render_glyph at h
  split at h
  case h_1 tg heq =>
    left
    simp only [Option.some.injEq, Prod.mk.injEq] at h
    exact ⟨tg, heq, h.1.symm, h.2.1.symm, h.2.2.symm⟩
  case h_2 heq =>
    dsimp only at h
    split at h
    case h_1 => exact absurd h (by simp)
    case h_2 b hb =>
      split at h
      case isTrue hsmall =>
        right; left
        simp only [Option.some.injEq, Prod.mk.injEq] at h
        exact ⟨b, heq, hb, hsmall, h.1.symm, h.2.1.symm, h.2.2.symm⟩
      case isFalse hsmall =>
        rw [show (c.shelfAdvance b.width).texture = c.texture from
          shelfAdvance_texture c b.width] at h
        split at h
        case isTrue hv =>
          right; right; left
          simp only [Option.some.injEq, Prod.mk.injEq] at h
          exact ⟨b, heq, hb, hsmall, hv, h.1.symm, h.2.1.symm, h.2.2.symm⟩
        case isFalse hv =>
          split at h
          case h_1 e hras =>
            right; right; right; left
            simp only [Option.some.injEq, Prod.mk.injEq] at h
            rw [shelfAdvance_font] at hras
            exact ⟨b, e, heq, hb, hsmall, hv, hras,
              h.1.symm, h.2.1.symm, h.2.2.symm⟩
          case h_2 d hras =>
            right; right; right; right
            simp only [Option.some.injEq, Prod.mk.injEq] at h
            rw [shelfAdvance_font] at hras
            refine ⟨b, d, heq, hb, hsmall, hv, hras, ?_, ?_, h.2.2.symm⟩
            · rw [← h.1, shelfAdvance_font]
            · rw [← h.2.1]
              simp only [Cache.commit, Cache.shelfAdvance]
              split <;> rfl

/-! ## The shelf-packing invariant -/

/-- Containment of one committed entry in the texture. -/
def entryFits (c : Cache) (tg : TextureGlyph) : Prop :=
  0 ≤ tg.bounds.x ∧ 0 ≤ tg.bounds.y ∧
  tg.bounds.x + (tg.bounds.width : Int) ≤ (c.texture.width : Int) ∧
  tg.bounds.y + (tg.bounds.height : Int) ≤ (c.texture.height : Int)

/-- Every committed entry lies either strictly above the active shelf
(its bottom edge at or above the vertical cursor) or inside the active
shelf: top edge at the vertical cursor, right edge at or left of the
horizontal cursor, and height within the current shelf height. -/
def entryShelf (c : Cache) (tg : TextureGlyph) : Prop :=
  tg.bounds.y + (tg.bounds.height : Int) ≤ (c.v_cursor : Int) ∨
  (tg.bounds.y = (c.v_cursor : Int) ∧
   tg.bounds.x + (tg.bounds.width : Int) ≤ (c.h_cursor : Int) ∧
   tg.bounds.height ≤ c.current_line_height)

/-- The packer invariant: every entry is contained in the texture and
respects the shelf structure, and the committed regions are pairwise
disjoint. -/
def CacheInv (c : Cache) : Prop :=
  (∀ p ∈ c.map, entryFits c p.2 ∧ entryShelf c p.2) ∧
  c.map.Pairwise (fun p q => p.2.bounds.disjoint q.2.bounds)

theorem cacheInv_new (f : FontProvider) (t : Texture) :
    CacheInv (Cache.new f t) := by
  constructor
  · intro p hp; exact absurd hp (List.not_mem_nil p)
  · exact List.Pairwise.nil

theorem cacheInv_clear (c : Cache) : CacheInv c.clear := by
  constructor
  · intro p hp; exact absurd hp (List.not_mem_nil p)
  · exact List.Pairwise.nil

/-- The row wrap preserves the invariant: entries of the now-finished
shelf end up strictly above the new vertical cursor because the shelf
height bounded their heights. -/
theorem cacheInv_shelfAdvance (c : Cache) (w : Nat) (inv : CacheInv c) :
    CacheInv (c.shelfAdvance w) := by
  obtain ⟨hents, hpw⟩ := inv
  unfold Cache.shelfAdvance
  split
  · constructor
    · intro p hp
      obtain ⟨hfit, hshelf⟩ := hents p hp
      refine ⟨hfit, Or.inl ?_⟩
      show p.2.bounds.y + (p.2.bounds.height : Int) ≤
        ((c.v_cursor + c.current_line_height + 1 : Nat) : Int)
      rcases hshelf with ha | ⟨hy, _, hh⟩
      · push_cast; omega
      · push_cast; omega
    · exact hpw
  · exact ⟨hents, hpw⟩

/-- The commit step preserves the invariant, provided the glyph was
absent and the placement checks passed. -/
theorem cacheInv_commit (c : Cache) (g : Glyph) (w hgt : Nat) (d : List Nat)
    (inv : CacheInv c) (hget : mapGet c.map g = none)
    (hw : w + c.h_cursor ≤ c.texture.width)
    (hh : hgt + c.v_cursor ≤ c.texture.height) :
    CacheInv (c.commit g w hgt d) := by
  obtain ⟨hents, hpw⟩ := inv
  unfold Cache.commit
  rw [mapInsert_of_get_none c.map g _ hget]
  constructor
  · intro p hp
    rcases List.mem_append.mp hp with hold | hnew
    · obtain ⟨hfit, hshelf⟩ := hents p hold
      constructor
      · exact hfit
      · show p.2.bounds.y + (p.2.bounds.height : Int) ≤ (c.v_cursor : Int) ∨
          (p.2.bounds.y = (c.v_cursor : Int) ∧
           p.2.bounds.x + (p.2.bounds.width : Int) ≤
             ((c.h_cursor + w + 1 : Nat) : Int) ∧
           p.2.bounds.height ≤ max c.current_line_height hgt)
        rcases hshelf with ha | ⟨hy, hx, hht⟩
        · exact Or.inl ha
        · refine Or.inr ⟨hy, ?_, ?_⟩
          · push_cast; omega
          · exact le_trans hht (Nat.le_max_left _ _)
    · rw [List.mem_singleton.mp hnew]
      constructor
      · show (0 : Int) ≤ (c.h_cursor : Int) ∧ (0 : Int) ≤ (c.v_cursor : Int) ∧
          (c.h_cursor : Int) + (w : Int) ≤ (c.texture.width : Int) ∧
          (c.v_cursor : Int) + (hgt : Int) ≤ (c.texture.height : Int)
        refine ⟨Int.ofNat_nonneg _, Int.ofNat_nonneg _, ?_, ?_⟩ <;> omega
      · show ((c.v_cursor : Int) + (hgt : Int) ≤ (c.v_cursor : Int)) ∨
          ((c.v_cursor : Int) = (c.v_cursor : Int) ∧
           (c.h_cursor : Int) + (w : Int) ≤ ((c.h_cursor + w + 1 : Nat) : Int) ∧
           hgt ≤ max c.current_line_height hgt)
        refine Or.inr ⟨rfl, ?_, Nat.le_max_right _ _⟩
        push_cast; omega
  · rw [List.pairwise_append]
    refine ⟨hpw, List.pairwise_singleton _ _, ?_⟩
    intro p hp q hq
    rw [List.mem_singleton.mp hq]
    obtain ⟨_, hshelf⟩ := hents p hp
    unfold Bounds.disjoint
    dsimp only
    rcases hshelf with ha | ⟨_, hx, _⟩
    · exact Or.inr (Or.inr (Or.inl ha))
    · exact Or.inl hx

/-- A single non-panicking `render_glyph` call preserves the invariant. -/
theorem cacheInv_render_glyph (c : Cache) (g : Glyph)
    (r : Except CacheError (Metrics × TextureGlyph)) (c2 : Cache) (l : List Glyph)
    (inv : CacheInv c) (h : c.render_glyph g = some (r, c2, l)) :
    CacheInv c2 := by
  rcases render_glyph_cases c g r c2 l h with
    ⟨tg, _, _, hc2, _⟩ | ⟨b, _, _, _, _, hc2, _⟩ |
    ⟨b, _, _, _, _, _, hc2, _⟩ | ⟨b, e, _, _, _, _, _, _, hc2, _⟩ |
    ⟨b, d, hget, hb, hsmall, hv, hras, hr, hc2, hl⟩
  · exact hc2 ▸ inv
  · exact hc2 ▸ inv
  · exact hc2 ▸ cacheInv_shelfAdvance c b.width inv
  · exact hc2 ▸ cacheInv_shelfAdvance c b.width inv
  · subst hc2
    have hwle : b.width ≤ c.texture.width := by omega
    refine cacheInv_commit _ g b.width b.height d
      (cacheInv_shelfAdvance c b.width inv) ?_ ?_ ?_
    · rw [shelfAdvance_map]; exact hget
    · rw [shelfAdvance_texture]
      exact shelfAdvance_fit c b.width hwle
    · rw [shelfAdvance_texture]; omega

theorem cacheInv_renderStep (c : Cache) (g : Glyph) (inv : CacheInv c) :
    CacheInv (c.renderStep g) := by
  unfold Cache.renderStep
  split
  case h_1 r c2 l heq => exact cacheInv_render_glyph c g r c2 l inv heq
  case h_2 => exact inv

theorem cacheInv_applyOp (c : Cache) (op : CacheOp) (inv : CacheInv c) :
    CacheInv (c.applyOp op) := by
  cases op with
  | render g => exact cacheInv_renderStep c g inv
  | clear => exact cacheInv_clear c
  | replaceTexture t =>
    constructor
    · intro p hp; exact absurd hp (List.not_mem_nil p)
    · exact List.Pairwise.nil

theorem cacheInv_runOps (c : Cache) (ops : List CacheOp) (inv : CacheInv c) :
    CacheInv (c.runOps ops) := by
  induction ops generalizing c with
  | nil => exact inv
  | cons op rest ih => exact ih (c.applyOp op) (cacheInv_applyOp c op inv)

theorem cacheInv_runGlyphs (c : Cache) (gs : List Glyph) (inv : CacheInv c) :
    CacheInv (c.runGlyphs gs) := by
  induction gs generalizing c with
  | nil => exact inv
  | cons g rest ih => exact ih (c.renderStep g) (cacheInv_renderStep c g inv)

/-! ## Further fixtures for witnesses -/

/-- A provider every one of whose glyphs is 9-wide and 5-high: too big
for the 8-by-4 texture in both directions. -/
def fBig : FontProvider :=
  { pixel_type := .Alpha,
    metrics := fun _ => { bounds := some ⟨0, 0, 9, 5⟩ },
    rasterize := fun _ => .ok [] }

/-- A provider whose glyphs have placeable 3-by-2 bounds but whose
rasterization always fails. -/
def fRasFail : FontProvider :=
  { pixel_type := .Alpha,
    metrics := fun _ => { bounds := some ⟨0, 0, 3, 2⟩ },
    rasterize := fun g => .error (.NonRenderableGlyph g) }

/-! ## The claims -/

/-- C1 (counterexample): the claim "an `OutOfSpace` return leaves the
packer state identical" is false: in the 8-by-4 scenario state holding
A and B, rendering C returns `OutOfSpace`, yet both cursors and the
shelf height have changed, because the row wrap of lines 210-214 runs
before the vertical-space check of line 215. -/
theorem render_glyph_out_of_space_mutates_cursors :
    renderedErr cAB gC = some .OutOfSpace ∧
    (cAB.renderStep gC).h_cursor ≠ cAB.h_cursor ∧
    (cAB.renderStep gC).v_cursor ≠ cAB.v_cursor ∧
    (cAB.renderStep gC).current_line_height ≠ cAB.current_line_height := by
  decide

/-- C1 (amended): if `render_glyph` returns `OutOfSpace`, the lookup
table, the texture (hence its pixel contents) and the provider are
unchanged, and the cursor fields are either all unchanged or have had
exactly the row-wrap of lines 210-214 applied: horizontal cursor zero,
vertical cursor advanced by the old shelf height plus one, shelf
height zero. -/
theorem render_glyph_out_of_space_state (c : Cache) (g : Glyph)
    (c2 : Cache) (l : List Glyph)
    (h : c.render_glyph g = some (.error .OutOfSpace, c2, l)) :
    c2.map = c.map ∧ c2.texture = c.texture ∧ c2.font = c.font ∧
    ((c2.h_cursor = c.h_cursor ∧ c2.v_cursor = c.v_cursor ∧
      c2.current_line_height = c.current_line_height) ∨
     (c2.h_cursor = 0 ∧ c2.v_cursor = c.v_cursor + c.current_line_height + 1 ∧
      c2.current_line_height = 0)) := by
  rcases render_glyph_cases c g _ c2 l h with
    ⟨tg, _, hr, _, _⟩ | ⟨b, _, _, _, hr, hc2, _⟩ |
    ⟨b, _, _, _, _, _, hc2, _⟩ | ⟨b, e, _, _, _, _, _, _, hc2, _⟩ |
    ⟨b, d, _, _, _, _, _, hr, _, _⟩
  · exact absurd hr (by simp)
  · exact absurd hr.symm (by simp)
  · subst hc2
    unfold Cache.shelfAdvance
    split
    · exact ⟨rfl, rfl, rfl, Or.inr ⟨rfl, rfl, rfl⟩⟩
    · exact ⟨rfl, rfl, rfl, Or.inl ⟨rfl, rfl, rfl⟩⟩
  · subst hc2
    unfold Cache.shelfAdvance
    split
    · exact ⟨rfl, rfl, rfl, Or.inr ⟨rfl, rfl, rfl⟩⟩
    · exact ⟨rfl, rfl, rfl, Or.inl ⟨rfl, rfl, rfl⟩⟩
  · exact absurd hr (by simp)

/-- C1 (witness): the amended statement applied to the concrete
scenario call that fails with `OutOfSpace` after a row wrap. -/
theorem render_glyph_out_of_space_state_witness :
    (cAB.renderStep gC).map = cAB.map ∧
    (cAB.renderStep gC).texture = cAB.texture ∧
    (cAB.renderStep gC).font = cAB.font ∧
    (((cAB.renderStep gC).h_cursor = cAB.h_cursor ∧
      (cAB.renderStep gC).v_cursor = cAB.v_cursor ∧
      (cAB.renderStep gC).current_line_height = cAB.current_line_height) ∨
     ((cAB.renderStep gC).h_cursor = 0 ∧
      (cAB.renderStep gC).v_cursor = cAB.v_cursor + cAB.current_line_height + 1 ∧
      (cAB.renderStep gC).current_line_height = 0)) :=
  render_glyph_out_of_space_state cAB gC (cAB.renderStep gC) [] (by rfl)

/-- C2 (code bug): a glyph absent from the lookup table whose metrics
report no bounds makes `render_glyph` panic (the `unwrap` on line 206
aborts, modelled by `none`) instead of returning the documented
`NonRenderableGlyph` error.  Evaluated here at the failing input: a
fresh 8-by-4 cache over `fABC` and glyph 3, whose bounds are `none`.
No cursor change, insertion, rasterization or texture write happens,
but neither does a normal error return. -/
theorem render_glyph_unsized_glyph_panics :
    (Cache.new fABC tex84).render_glyph ⟨3⟩ = none ∧
    (fABC.metrics ⟨3⟩).bounds = none := by
  constructor
  · rfl
  · decide

/-- C3: the concrete 8-by-4 scenario.  From the empty cache, glyph A
(3 by 2) commits region (0,0,3,2); glyph B (3 by 2) commits region
(4,0,3,2); glyph C (3 by 2) fails with `OutOfSpace`; afterwards A and
B are still in the lookup table (cache hits) and resolve to the same
regions. -/
theorem render_glyph_concrete_scenario :
    renderedRegion c0 gA = some ⟨0, 0, 3, 2⟩ ∧
    renderedRegion cA gB = some ⟨4, 0, 3, 2⟩ ∧
    renderedErr cAB gC = some .OutOfSpace ∧
    mapGet (cAB.renderStep gC).map gA = some ⟨gA, ⟨0, 0, 3, 2⟩⟩ ∧
    mapGet (cAB.renderStep gC).map gB = some ⟨gB, ⟨4, 0, 3, 2⟩⟩ ∧
    renderedRegion (cAB.renderStep gC) gA = some ⟨0, 0, 3, 2⟩ ∧
    renderedRegion (cAB.renderStep gC) gB = some ⟨4, 0, 3, 2⟩ := by
  decide

/-- C4: starting from a fresh cache, after any sequence of
`render_glyph` calls (no clear and no texture replacement), the
regions stored in the lookup table are pairwise disjoint. -/
theorem render_glyph_non_overlap (f : FontProvider) (t : Texture)
    (gs : List Glyph) :
    ((Cache.new f t).runGlyphs gs).map.Pairwise
      (fun p q => p.2.bounds.disjoint q.2.bounds) :=
  (cacheInv_runGlyphs (Cache.new f t) gs (cacheInv_new f t)).2

/-- C5: after any sequence of operations (renders, clears, texture
replacements) on a fresh cache, every entry of the lookup table lies
inside the current texture: nonnegative origin, right edge within the
texture width, bottom edge within the texture height. -/
theorem render_glyph_containment (f : FontProvider) (t : Texture)
    (ops : List CacheOp) (p : Glyph × TextureGlyph)
    (hp : p ∈ ((Cache.new f t).runOps ops).map) :
    0 ≤ p.2.bounds.x ∧ 0 ≤ p.2.bounds.y ∧
    p.2.bounds.x + (p.2.bounds.width : Int) ≤
      (((Cache.new f t).runOps ops).texture.width : Int) ∧
    p.2.bounds.y + (p.2.bounds.height : Int) ≤
      (((Cache.new f t).runOps ops).texture.height : Int) :=
  ((cacheInv_runOps (Cache.new f t) ops (cacheInv_new f t)).1 p hp).1

/-- C5 (witness): containment applied to the entry committed for glyph
A in a one-render history on the 8-by-4 texture. -/
theorem render_glyph_containment_witness :
    (gA, (⟨gA, ⟨0, 0, 3, 2⟩⟩ : TextureGlyph)) ∈
      ((Cache.new fABC tex84).runOps [.render gA]).map ∧
    (0 ≤ (⟨gA, ⟨0, 0, 3, 2⟩⟩ : TextureGlyph).bounds.x ∧
     0 ≤ (⟨gA, ⟨0, 0, 3, 2⟩⟩ : TextureGlyph).bounds.y ∧
     (⟨gA, ⟨0, 0, 3, 2⟩⟩ : TextureGlyph).bounds.x +
       ((⟨gA, ⟨0, 0, 3, 2⟩⟩ : TextureGlyph).bounds.width : Int) ≤
       ((((Cache.new fABC tex84).runOps [.render gA])).texture.width : Int) ∧
     (⟨gA, ⟨0, 0, 3, 2⟩⟩ : TextureGlyph).bounds.y +
       ((⟨gA, ⟨0, 0, 3, 2⟩⟩ : TextureGlyph).bounds.height : Int) ≤
       ((((Cache.new fABC tex84).runOps [.render gA])).texture.height : Int)) :=
  ⟨by decide, render_glyph_containment fABC tex84 [.render gA]
    (gA, ⟨gA, ⟨0, 0, 3, 2⟩⟩) (by decide)⟩

/-- The row wrap never moves the horizontal cursor right without
strictly advancing the vertical cursor. -/
theorem shelfAdvance_h_or (c : Cache) (w : Nat) :
    c.h_cursor ≤ (c.shelfAdvance w).h_cursor ∨
    c.v_cursor < (c.shelfAdvance w).v_cursor := by
  unfold Cache.shelfAdvance
  split
  · refine Or.inr ?_
    show c.v_cursor < c.v_cursor + c.current_line_height + 1
    omega
  · exact Or.inl (Nat.le_refl _)

/-- A binding found in the first part of an association list survives
appending. -/
theorem mapGet_append_left (m m2 : List (Glyph × TextureGlyph)) (g : Glyph)
    (tg : TextureGlyph) (h : mapGet m g = some tg) :
    mapGet (m ++ m2) g = some tg := by
  induction m with
  | nil => exact absurd h (by simp [mapGet])
  | cons p rest ih =>
    obtain ⟨k, v⟩ := p
    rw [List.cons_append]
    unfold mapGet at h ⊢
    by_cases hk : k = g
    · simpa [hk] using h
    · simp only [if_neg hk] at h ⊢
      exact ih h

/-- A cached binding survives a `render_glyph` call for any glyph:
the call either leaves the lookup table alone or appends a binding for
a glyph that was absent. -/
theorem renderStep_mapGet_preserve (c : Cache) (g g2 : Glyph)
    (tg : TextureGlyph) (h : mapGet c.map g = some tg) :
    mapGet (c.renderStep g2).map g = some tg := by
  unfold Cache.renderStep
  split
  case h_1 r c2 l heq =>
    rcases render_glyph_cases c g2 r c2 l heq with
      ⟨tg2, _, _, hc2, _⟩ | ⟨b, _, _, _, _, hc2, _⟩ |
      ⟨b, _, _, _, _, _, hc2, _⟩ | ⟨b, e, _, _, _, _, _, _, hc2, _⟩ |
      ⟨b, d, hget2, _, _, _, _, _, hc2, _⟩
    · exact hc2 ▸ h
    · exact hc2 ▸ h
    · subst hc2; rw [shelfAdvance_map]; exact h
    · subst hc2; rw [shelfAdvance_map]; exact h
    · subst hc2
      simp only [Cache.commit]
      rw [mapInsert_of_get_none _ g2 _ (by rw [shelfAdvance_map]; exact hget2)]
      exact mapGet_append_left _ _ g tg (by rw [shelfAdvance_map]; exact h)
  case h_2 => exact h

theorem runGlyphs_mapGet_preserve (c : Cache) (g : Glyph) (tg : TextureGlyph)
    (gs : List Glyph) (h : mapGet c.map g = some tg) :
    mapGet (c.runGlyphs gs).map g = some tg := by
  induction gs generalizing c with
  | nil => exact h
  | cons g2 rest ih =>
    exact ih (c.renderStep g2) (renderStep_mapGet_preserve c g g2 tg h)

/-- `render_glyph` never changes the font provider. -/
theorem renderStep_font (c : Cache) (g2 : Glyph) :
    (c.renderStep g2).font = c.font := by
  unfold Cache.renderStep
  split
  case h_1 r c2 l heq =>
    rcases render_glyph_cases c g2 r c2 l heq with
      ⟨tg2, _, _, hc2, _⟩ | ⟨b, _, _, _, _, hc2, _⟩ |
      ⟨b, _, _, _, _, _, hc2, _⟩ | ⟨b, e, _, _, _, _, _, _, hc2, _⟩ |
      ⟨b, d, _, _, _, _, _, _, hc2, _⟩
    · exact hc2 ▸ rfl
    · exact hc2 ▸ rfl
    · subst hc2; exact shelfAdvance_font c b.width
    · subst hc2; exact shelfAdvance_font c b.width
    · subst hc2
      simp only [Cache.commit]
      exact shelfAdvance_font c b.width
  case h_2 => rfl

theorem runGlyphs_font (c : Cache) (gs : List Glyph) :
    (c.runGlyphs gs).font = c.font := by
  induction gs generalizing c with
  | nil => rfl
  | cons g2 rest ih => exact (ih (c.renderStep g2)).trans (renderStep_font c g2)

/-- C6: a successful first `render_glyph` call on an uncached glyph
rasterizes exactly once (trace `[g]`) and writes to the texture exactly
once (the write log grows by one); and after any further `render_glyph`
calls with no clear or texture replacement, a repeated call for the
same glyph is a pure cache hit: it succeeds with the identical region
together with freshly queried metrics, leaves the state untouched
(hence no texture write), and performs no rasterization (empty
trace). -/
theorem render_glyph_idempotent_hit (c : Cache) (g : Glyph) (m : Metrics)
    (tg : TextureGlyph) (c2 : Cache) (l : List Glyph)
    (hget : mapGet c.map g = none)
    (h : c.render_glyph g = some (.ok (m, tg), c2, l)) :
    l = [g] ∧
    c2.texture.writes.length = c.texture.writes.length + 1 ∧
    ∀ gs : List Glyph,
      (c2.runGlyphs gs).render_glyph g =
        some (.ok (c.font.metrics g, tg), c2.runGlyphs gs, []) := by
  rcases render_glyph_cases c g _ c2 l h with
    ⟨tg2, hget2, _, _, _⟩ | ⟨b, _, _, _, hr, _, _⟩ |
    ⟨b, _, _, _, _, hr, _, _⟩ | ⟨b, e, _, _, _, _, _, hr, _, _⟩ |
    ⟨b, d, _, hb, hsmall, hv, hras, hr, hc2, hl⟩
  · rw [hget] at hget2; exact absurd hget2 (by simp)
  · exact absurd hr (by simp)
  · exact absurd hr (by simp)
  · exact absurd hr (by simp)
  · have htg : tg = ⟨g, ⟨((c.shelfAdvance b.width).h_cursor : Int),
        ((c.shelfAdvance b.width).v_cursor : Int), b.width, b.height⟩⟩ := by
      simp only [Except.ok.injEq, Prod.mk.injEq] at hr
      exact hr.2
    have hfont : c2.font = c.font := by
      subst hc2
      simp only [Cache.commit]
      exact shelfAdvance_font c b.width
    have hget3 : mapGet c2.map g = some tg := by
      subst hc2
      simp only [Cache.commit]
      rw [htg]
      exact mapGet_insert_self _ _ _
    refine ⟨hl, ?_, ?_⟩
    · subst hc2
      simp only [Cache.commit, Texture.put_rect, shelfAdvance_texture]
      simp
    · intro gs
      have hg3 : mapGet (c2.runGlyphs gs).map g = some tg :=
        runGlyphs_mapGet_preserve c2 g tg gs hget3
      have hf3 : (c2.runGlyphs gs).font = c.font :=
        (runGlyphs_font c2 gs).trans hfont
      simp only [Cache.render_glyph, hg3, hf3]

/-- C6 (witness): the idempotent-hit property applied to glyph A on the
fresh 8-by-4 cache. -/
theorem render_glyph_idempotent_hit_witness :
    mapGet c0.map gA = none ∧
    [gA] = [gA] ∧
    cA.texture.writes.length = c0.texture.writes.length + 1 ∧
    (cA.runGlyphs [gB]).render_glyph gA =
      some (.ok (c0.font.metrics gA, ⟨gA, ⟨0, 0, 3, 2⟩⟩), cA.runGlyphs [gB], []) :=
  have h := render_glyph_idempotent_hit c0 gA ⟨some ⟨0, 0, 3, 2⟩⟩
    ⟨gA, ⟨0, 0, 3, 2⟩⟩ cA [gA] (by decide) (by rfl)
  ⟨by decide, h.1, h.2.1, h.2.2 [gB]⟩

/-- C7: an uncached glyph whose bounds exceed the texture in either
direction makes `render_glyph` fail with `TextureTooSmall`, leaving
the state untouched and neither rasterizing nor writing, whatever the
cursors and lookup table contain. -/
theorem render_glyph_texture_too_small (c : Cache) (g : Glyph) (b : Bounds)
    (hget : mapGet c.map g = none)
    (hb : (c.font.metrics g).bounds = some b)
    (hbig : b.width > c.texture.width ∨ b.height > c.texture.height) :
    c.render_glyph g = some (.error .TextureTooSmall, c, []) := by
  simp only [Cache.render_glyph, hget, hb]
  rw [if_pos hbig]

/-- C7 (witness): a 9-by-5 glyph on the 8-by-4 texture fails with
`TextureTooSmall` from the fresh cache. -/
theorem render_glyph_texture_too_small_witness :
    mapGet (Cache.new fBig tex84).map gA = none ∧
    ((Cache.new fBig tex84).font.metrics gA).bounds = some ⟨0, 0, 9, 5⟩ ∧
    ((9 : Nat) > (Cache.new fBig tex84).texture.width ∨
     (5 : Nat) > (Cache.new fBig tex84).texture.height) ∧
    (Cache.new fBig tex84).render_glyph gA =
      some (.error .TextureTooSmall, Cache.new fBig tex84, []) :=
  ⟨by decide, by decide, by decide,
    render_glyph_texture_too_small (Cache.new fBig tex84) gA ⟨0, 0, 9, 5⟩
      (by decide) (by decide) (by decide)⟩

/-- C8 (counterexample): the claim "neither cursor ever decreases
across a single `render_glyph` call" is false: the scenario call that
wraps to a new shelf resets the horizontal cursor from 8 to 0. -/
theorem render_glyph_h_cursor_decreases :
    renderedErr cAB gC = some .OutOfSpace ∧
    (cAB.renderStep gC).h_cursor < cAB.h_cursor := by
  decide

/-- C8 (amended): across any non-panicking `render_glyph` call the
vertical cursor never decreases, and the cursor pair only advances in
lexicographic order: the horizontal cursor can decrease only in a call
that strictly increases the vertical cursor (a row wrap).  Cursors are
otherwise reduced only by `clear`. -/
theorem render_glyph_cursor_monotonic (c : Cache) (g : Glyph)
    (r : Except CacheError (Metrics × TextureGlyph)) (c2 : Cache)
    (l : List Glyph) (h : c.render_glyph g = some (r, c2, l)) :
    c.v_cursor ≤ c2.v_cursor ∧
    (c.h_cursor ≤ c2.h_cursor ∨ c.v_cursor < c2.v_cursor) := by
  rcases render_glyph_cases c g r c2 l h with
    ⟨tg, _, _, hc2, _⟩ | ⟨b, _, _, _, _, hc2, _⟩ |
    ⟨b, _, _, _, _, _, hc2, _⟩ | ⟨b, e, _, _, _, _, _, _, hc2, _⟩ |
    ⟨b, d, _, _, _, _, _, _, hc2, _⟩
  · subst hc2; exact ⟨Nat.le_refl _, Or.inl (Nat.le_refl _)⟩
  · subst hc2; exact ⟨Nat.le_refl _, Or.inl (Nat.le_refl _)⟩
  · subst hc2
    exact ⟨shelfAdvance_v_cursor c b.width, shelfAdvance_h_or c b.width⟩
  · subst hc2
    exact ⟨shelfAdvance_v_cursor c b.width, shelfAdvance_h_or c b.width⟩
  · subst hc2
    simp only [Cache.commit]
    refine ⟨shelfAdvance_v_cursor c b.width, ?_⟩
    rcases shelfAdvance_h_or c b.width with hh | hv
    · exact Or.inl (le_trans hh (by omega))
    · exact Or.inr hv

/-- C8 (witness): the amended monotonicity applied to the scenario
call in which the horizontal cursor wraps. -/
theorem render_glyph_cursor_monotonic_witness :
    cAB.v_cursor ≤ (cAB.renderStep gC).v_cursor ∧
    (cAB.h_cursor ≤ (cAB.renderStep gC).h_cursor ∨
     cAB.v_cursor < (cAB.renderStep gC).v_cursor) :=
  render_glyph_cursor_monotonic cAB gC (.error .OutOfSpace)
    (cAB.renderStep gC) [] (by rfl)

/-- C9: `clear` empties the lookup table, zeroes both cursors and the
shelf height, and leaves the texture — and so its recorded pixel
writes — untouched. -/
theorem clear_resets (c : Cache) :
    c.clear.map = [] ∧ c.clear.h_cursor = 0 ∧ c.clear.v_cursor = 0 ∧
    c.clear.current_line_height = 0 ∧ c.clear.texture = c.texture :=
  ⟨rfl, rfl, rfl, rfl, rfl⟩

/-- C10: when rasterization fails on a cache miss that passed the
placement checks, the provider's error is returned as is, the lookup
table and the texture are unchanged (no insertion, no write), the
post-state is exactly the pre-state with at most the row wrap applied,
and the glyph is still uncached, so a later call will retry
rasterization (the trace `[g]` records the attempt). -/
theorem render_glyph_rasterize_failure (c : Cache) (g : Glyph) (b : Bounds)
    (e : CacheError)
    (hget : mapGet c.map g = none)
    (hb : (c.font.metrics g).bounds = some b)
    (hsmall : ¬(b.width > c.texture.width ∨ b.height > c.texture.height))
    (hfit : ¬(b.height + (c.shelfAdvance b.width).v_cursor > c.texture.height))
    (hras : c.font.rasterize g = .error e) :
    c.render_glyph g = some (.error e, c.shelfAdvance b.width, [g]) ∧
    (c.shelfAdvance b.width).map = c.map ∧
    (c.shelfAdvance b.width).texture = c.texture ∧
    mapGet (c.shelfAdvance b.width).map g = none := by
  refine ⟨?_, shelfAdvance_map c b.width, shelfAdvance_texture c b.width, ?_⟩
  · simp only [Cache.render_glyph, hget, hb]
    rw [if_neg hsmall, shelfAdvance_texture, if_neg hfit, shelfAdvance_font,
      hras]
  · rw [shelfAdvance_map c b.width]
    exact hget

/-- C10 (witness): a provider that always fails rasterization, on the
fresh 8-by-4 cache and glyph A. -/
theorem render_glyph_rasterize_failure_witness :
    (Cache.new fRasFail tex84).render_glyph gA =
      some (.error (.NonRenderableGlyph gA),
        (Cache.new fRasFail tex84).shelfAdvance 3, [gA]) ∧
    ((Cache.new fRasFail tex84).shelfAdvance 3).map =
      (Cache.new fRasFail tex84).map ∧
    ((Cache.new fRasFail tex84).shelfAdvance 3).texture =
      (Cache.new fRasFail tex84).texture ∧
    mapGet (((Cache.new fRasFail tex84).shelfAdvance 3)).map gA = none :=
  render_glyph_rasterize_failure (Cache.new fRasFail tex84) gA ⟨0, 0, 3, 2⟩
    (.NonRenderableGlyph gA) (by decide) (by decide) (by decide) (by decide)
    (by rfl)
